import Mathlib

/-!
# Verification of the Youtube-Sentiment-Analysis scripts

Shallow embedding of the data model and operations of the repository's
scripts (`main.py`, `data_scraper_channel.py`,
`sentiment_analyzer_transformer.py`, `sentiment_analyzer_openai.py`),
together with theorems about them.  External services (the video
listing/search service, the transcript service, the metadata service, the
classifier, the hosted language model) are modelled as oracles supplied as
parameters; strings are modelled as `List Char`; Python machine integers
are `Nat`; Python exceptions are `Except`/`Option` results.
-/

namespace YTSent

/-! ## Transcript chunking — `src/sentiment_analyzer_transformer.py`, lines 48–58 -/

/-- `transcript_to_id_chunks` (src/sentiment_analyzer_transformer.py lines 48–58).
Tokenisation (`tokenizer.encode(text, add_special_tokens=False)`) is an external
service, so the function takes the resulting token-identifier list directly and
performs the slicing
`[token_ids[i : i + chunk_size] for i in range(0, len(token_ids), chunk_size)]`,
i.e. it repeatedly takes the next `chunk_size` identifiers until the list is
exhausted.  `chunk_size = 0` is outside the modelled domain (Python `range`
with step 0 raises `ValueError`; the script always calls it with
`model_max_length - 2`). -/
def transcript_to_id_chunks (token_ids : List Nat) (chunk_size : Nat) : List (List Nat) :=
  if chunk_size = 0 then []
  else if token_ids = [] then []
  else token_ids.take chunk_size ::
    transcript_to_id_chunks (token_ids.drop chunk_size) chunk_size
termination_by token_ids.length
decreasing_by
  simp only [List.length_drop]
  have h2 : 0 < token_ids.length := List.length_pos.mpr (by assumption)
  omega

theorem transcript_to_id_chunks_nil (c : Nat) : transcript_to_id_chunks [] c = [] := by
  rw [transcript_to_id_chunks]
  simp

theorem transcript_to_id_chunks_cons (ids : List Nat) (c : Nat) (hc : c ≠ 0) (h : ids ≠ []) :
    transcript_to_id_chunks ids c =
      ids.take c :: transcript_to_id_chunks (ids.drop c) c := by
  rw [transcript_to_id_chunks]
  simp [hc, h]

theorem transcript_to_id_chunks_length (ids : List Nat) (c : Nat) (hc : 0 < c) :
    (transcript_to_id_chunks ids c).length = (ids.length + c - 1) / c := by
  induction ids, c using transcript_to_id_chunks.induct with
  | case1 ids => omega
  | case2 c hc0 =>
    rw [transcript_to_id_chunks_nil]
    simp [Nat.div_eq_of_lt (show c - 1 < c by omega)]
  | case3 ids c hc0 hne ih =>
    rw [transcript_to_id_chunks_cons ids c hc0 hne]
    have hL : 0 < ids.length := List.length_pos.mpr hne
    have hrw : ids.length + c - 1 = (ids.length - 1) + c := by omega
    rw [List.length_cons, ih hc, List.length_drop, hrw, Nat.add_div_right _ hc]
    have : ids.length - c + c - 1 = if ids.length ≤ c then c - 1 else ids.length - 1 := by
      split <;> omega
    rw [this]
    split
    · rename_i hle
      rw [Nat.div_eq_of_lt (show c - 1 < c by omega),
        Nat.div_eq_of_lt (show ids.length - 1 < c by omega)]
    · rfl

theorem transcript_to_id_chunks_le (ids : List Nat) (c : Nat) :
    ∀ w ∈ transcript_to_id_chunks ids c, w.length ≤ c := by
  induction ids, c using transcript_to_id_chunks.induct with
  | case1 ids => simp [transcript_to_id_chunks]
  | case2 c hc0 => simp [transcript_to_id_chunks_nil]
  | case3 ids c hc0 hne ih =>
    rw [transcript_to_id_chunks_cons ids c hc0 hne]
    intro w hw
    rcases List.mem_cons.mp hw with h | h
    · subst h
      simp [List.length_take]
    · exact ih w h

theorem transcript_to_id_chunks_flatten (ids : List Nat) (c : Nat) (hc : 0 < c) :
    (transcript_to_id_chunks ids c).flatten = ids := by
  induction ids, c using transcript_to_id_chunks.induct with
  | case1 ids => omega
  | case2 c hc0 => rw [transcript_to_id_chunks_nil]; rfl
  | case3 ids c hc0 hne ih =>
    rw [transcript_to_id_chunks_cons ids c hc0 hne]
    rw [List.flatten_cons, ih hc, List.take_append_drop]

/-- C1: for every token sequence of length `L` and chunk size `C > 0`,
`transcript_to_id_chunks` returns exactly `⌈L/C⌉` windows (zero when `L = 0`),
each window is at most `C` identifiers long, and concatenating the windows in
order reconstructs the original token-identifier sequence exactly. -/
theorem c1_chunker_spec (ids : List Nat) (c : Nat) (hc : 0 < c) :
    (transcript_to_id_chunks ids c).length = (ids.length + c - 1) / c ∧
    (∀ w ∈ transcript_to_id_chunks ids c, w.length ≤ c) ∧
    (transcript_to_id_chunks ids c).flatten = ids ∧
    (ids = [] → transcript_to_id_chunks ids c = []) :=
  ⟨transcript_to_id_chunks_length ids c hc, transcript_to_id_chunks_le ids c,
   transcript_to_id_chunks_flatten ids c hc,
   fun h => h ▸ transcript_to_id_chunks_nil c⟩

theorem c1_chunker_spec_witness :
    0 < 3 ∧
    ((transcript_to_id_chunks [10, 20, 30, 40, 50, 60, 70] 3).length = (7 + 3 - 1) / 3 ∧
     (∀ w ∈ transcript_to_id_chunks [10, 20, 30, 40, 50, 60, 70] 3, w.length ≤ 3) ∧
     (transcript_to_id_chunks [10, 20, 30, 40, 50, 60, 70] 3).flatten =
       [10, 20, 30, 40, 50, 60, 70] ∧
     ([10, 20, 30, 40, 50, 60, 70] = ([] : List Nat) →
       transcript_to_id_chunks [10, 20, 30, 40, 50, 60, 70] 3 = [])) :=
  ⟨by omega, c1_chunker_spec [10, 20, 30, 40, 50, 60, 70] 3 (by omega)⟩

/-! ## String utilities shared by the scrapers -/

/-- Python `str.strip()` (no argument): remove leading and trailing whitespace. -/
def stripWS (s : List Char) : List Char :=
  ((s.dropWhile Char.isWhitespace).reverse.dropWhile Char.isWhitespace).reverse

/-- Python `' '.join(segments)`: the segments interleaved with single-space
separators and concatenated. -/
def joinSegs (segs : List (List Char)) : List Char :=
  (segs.intersperse [' ']).flatten

/-- Python `url.rstrip("/")`: remove trailing `'/'` characters. -/
def rstripSlash (s : List Char) : List Char :=
  (s.reverse.dropWhile (fun ch => ch = '/')).reverse

/-- The literal `"/videos"` appearing in `normalize_to_videos_page`. -/
def slashVideos : List Char := ['/', 'v', 'i', 'd', 'e', 'o', 's']

/-! ## Channel-reference normalizer — `src/data_scraper_channel.py`, lines 62–73 -/

/-- `normalize_to_videos_page` (src/data_scraper_channel.py lines 62–73):
```
if url.rstrip("/").endswith("/videos"):
    return url
return url.rstrip("/") + "/videos"
``` -/
def normalize_to_videos_page (url : List Char) : List Char :=
  if slashVideos.isSuffixOf (rstripSlash url) then url
  else rstripSlash url ++ slashVideos

theorem rstripSlash_append_slashVideos (u : List Char) :
    rstripSlash (u ++ slashVideos) = u ++ slashVideos := by
  simp [rstripSlash, slashVideos, List.reverse_append, List.dropWhile]

/-- C7 (counterexample): on the input `"a/"`, which does not end with the
literal suffix `"/videos"`, the code does not return the input with
`"/videos"` appended (it first strips the trailing slash), so the claim as
stated is false. -/
theorem c7_counterexample :
    slashVideos.isSuffixOf ['a', '/'] = false ∧
    normalize_to_videos_page ['a', '/'] ≠ ['a', '/'] ++ slashVideos := by
  constructor
  · decide
  · decide

/-- C7 (amended): `normalize_to_videos_page` returns its input unchanged when
the input stripped of trailing `'/'` characters ends with `"/videos"`, and
otherwise returns the input stripped of trailing `'/'` characters with
`"/videos"` appended; it is a total function (no error path: any malformed
input goes through the same two branches), and in either case the output
stripped of trailing slashes ends with `"/videos"`. -/
theorem c7_normalize_amended (url : List Char) :
    (slashVideos.isSuffixOf (rstripSlash url) = true → normalize_to_videos_page url = url) ∧
    (slashVideos.isSuffixOf (rstripSlash url) = false →
      normalize_to_videos_page url = rstripSlash url ++ slashVideos) ∧
    slashVideos.isSuffixOf (rstripSlash (normalize_to_videos_page url)) = true := by
  refine ⟨fun h => by simp [normalize_to_videos_page, h], fun h => by
    simp [normalize_to_videos_page, h], ?_⟩
  by_cases h : slashVideos.isSuffixOf (rstripSlash url) = true
  · simp [normalize_to_videos_page, h]
  · have h' : slashVideos.isSuffixOf (rstripSlash url) = false :=
      Bool.eq_false_iff.mpr h
    simp only [normalize_to_videos_page, h', Bool.false_eq_true, if_false,
      rstripSlash_append_slashVideos]
    exact List.isSuffixOf_iff_suffix.mpr (List.suffix_append _ _)

theorem c7_normalize_amended_witness :
    (slashVideos.isSuffixOf (rstripSlash ['a', '/']) = true →
      normalize_to_videos_page ['a', '/'] = ['a', '/']) ∧
    (slashVideos.isSuffixOf (rstripSlash ['a', '/']) = false →
      normalize_to_videos_page ['a', '/'] = rstripSlash ['a', '/'] ++ slashVideos) ∧
    slashVideos.isSuffixOf (rstripSlash (normalize_to_videos_page ['a', '/'])) = true :=
  c7_normalize_amended ['a', '/']

/-! ## Transcript fetcher — `src/data_scraper_channel.py` lines 76–86 and
`src/main.py` lines 57–67 (the two copies are identical up to whitespace) -/

/-- Behaviour of the external transcript service
(`YouTubeTranscriptApi.get_transcript`) for one video: it raises
`TranscriptsDisabled`, raises some other exception, or returns a list of
caption segments (each segment's `text` field). -/
inductive TrResp where
  | disabled
  | failure
  | segs (l : List (List Char))

/-- The error outcomes of `fetch_transcript`: the provider's
`TranscriptsDisabled`, the script's own `ValueError("empty transcript")`, or
any other provider exception propagating through. -/
inductive FetchErr where
  | disabled
  | emptyTranscript
  | other
deriving DecidableEq

/-- `fetch_transcript` (src/data_scraper_channel.py lines 76–86, src/main.py
lines 57–67):
```
segs = YouTubeTranscriptApi.get_transcript(video_id)
text = " ".join(s["text"] for s in segs).strip()
if not text:
    raise ValueError("empty transcript")
return text
``` -/
def fetch_transcript (r : TrResp) : Except FetchErr (List Char) :=
  match r with
  | .disabled => .error .disabled
  | .failure => .error .other
  | .segs l =>
    let text := stripWS (joinSegs l)
    if text = [] then .error .emptyTranscript else .ok text

theorem fetch_transcript_ok_ne_nil (r : TrResp) (t : List Char)
    (h : fetch_transcript r = .ok t) : t ≠ [] := by
  cases r with
  | disabled => simp [fetch_transcript] at h
  | failure => simp [fetch_transcript] at h
  | segs l =>
    simp only [fetch_transcript] at h
    split at h
    · simp at h
    · rename_i hne
      cases h
      exact hne

/-! ## Metadata fetcher with rate-limit retry —
`src/data_scraper_channel.py`, lines 154–187 -/

/-- One metadata record returned by `ydl_meta.extract_info`; each field models
the corresponding `info.get(...)` key, absent/`None` values as `none`. -/
structure MetaInfo where
  view_count : Option Nat
  like_count : Option Nat
  comment_count : Option Nat
  title : Option (List Char)
  upload_date : Option (List Char)
deriving DecidableEq

/-- Behaviour of one call to the external metadata service: success, a
`DownloadError` carrying a message, or any other exception. -/
inductive MetaResp where
  | ok (m : MetaInfo)
  | dlErr (msg : List Char)
  | otherErr

/-- `'rate-limited' in str(e).lower()` (src/data_scraper_channel.py line 160). -/
def containsRL (msg : List Char) : Bool :=
  decide (['r', 'a', 't', 'e', '-', 'l', 'i', 'm', 'i', 't', 'e', 'd'] <:+:
    msg.map Char.toLower)

/-- The metadata-fetch path of `data_scraper_channel.main` (lines 154–180),
for one video.  The service is modelled as a call-indexed oracle `svc`
(`svc 0` answers the first `extract_info` call, `svc 1` the retry).  The
result carries the obtained metadata (`none` when the video is skipped), the
number of service calls issued, and the list of sleep penalties taken:
```
try:    info = ydl_meta.extract_info(vid_url, ...)
except DownloadError as e:
    if "rate-limited" in str(e).lower():
        time.sleep(60)
        try: info = ydl_meta.extract_info(vid_url, ...)
        except Exception: skip
    else: skip
except Exception: skip
``` -/
def fetch_meta_with_retry (svc : Nat → MetaResp) : Option MetaInfo × Nat × List Nat :=
  match svc 0 with
  | .ok m => (some m, 1, [])
  | .dlErr msg =>
    if containsRL msg then
      match svc 1 with
      | .ok m => (some m, 2, [60])
      | .dlErr _ => (none, 2, [60])
      | .otherErr => (none, 2, [60])
    else (none, 1, [])
  | .otherErr => (none, 1, [])

/-! ## Channel harvest pipeline — `src/data_scraper_channel.py`, lines 91–208 -/

/-- One accepted output row (the `VideoRecord` of the spec); written as one
CSV row by either harvester.  `video_id` keeps the optional shape of
`entry.get('id')` from the sampler. -/
structure VideoRow where
  video_id : Option (List Char)
  views : Nat
  likes : Nat
  comments : Nat
  title : List Char
  published_at : List Char
  transcript : List Char
deriving DecidableEq

/-- External-service behaviour for one channel-harvest run: per-video
transcript responses and a per-video call-indexed metadata oracle. -/
structure ChannelEnv where
  transcript : List Char → TrResp
  meta : List Char → Nat → MetaResp

/-- The per-entry body of the loop in `data_scraper_channel.main`
(lines 132–203): skip entries without an id (`if not video_id`, which also
rejects the empty string), skip on any transcript error, skip when the
metadata fetch (with its single rate-limit retry) fails, otherwise build the
CSV row with `info.get(..., 0) or 0` / `info.get(..., "") or ""` defaults. -/
def processEntry (env : ChannelEnv) (eid : Option (List Char)) : Option VideoRow :=
  match eid with
  | none => none
  | some vid =>
    if vid = [] then none
    else
      match fetch_transcript (env.transcript vid) with
      | .error _ => none
      | .ok t =>
        match (fetch_meta_with_retry (env.meta vid)).1 with
        | none => none
        | some m =>
          some
            { video_id := some vid
              views := m.view_count.getD 0
              likes := m.like_count.getD 0
              comments := m.comment_count.getD 0
              title := m.title.getD []
              published_at := m.upload_date.getD []
              transcript := t }

/-- The rows `data_scraper_channel.main` writes to the CSV, given the ids of
the channel's uploads (the writing itself is external CSV I/O; skipped videos
contribute no row). -/
def channel_rows (env : ChannelEnv) (entries : List (Option (List Char))) : List VideoRow :=
  entries.filterMap (processEntry env)

/-- C3: the metadata-fetch path issues one service call; on a `DownloadError`
whose lowercased message contains `"rate-limited"` it sleeps the fixed
60-second penalty and retries exactly once (two calls, one 60s sleep, the
retry's failure giving up); any other error means no retry; it never issues
more than two calls; and a failed fetch means the video is skipped with no
row written (`processEntry` yields no row), not an abort. -/
theorem c3_metadata_retry (svc : Nat → MetaResp) :
    (fetch_meta_with_retry svc).2.1 ≤ 2 ∧
    (∀ m, svc 0 = .ok m → fetch_meta_with_retry svc = (some m, 1, [])) ∧
    (∀ msg, svc 0 = .dlErr msg → containsRL msg = true →
      (fetch_meta_with_retry svc).2 = (2, [60]) ∧
      (∀ m, svc 1 = .ok m → (fetch_meta_with_retry svc).1 = some m) ∧
      ((∀ m, svc 1 ≠ .ok m) → (fetch_meta_with_retry svc).1 = none)) ∧
    (∀ msg, svc 0 = .dlErr msg → containsRL msg = false →
      fetch_meta_with_retry svc = (none, 1, [])) ∧
    (svc 0 = .otherErr → fetch_meta_with_retry svc = (none, 1, [])) ∧
    (∀ (env : ChannelEnv) (vid : List Char),
      (fetch_meta_with_retry (env.meta vid)).1 = none →
      processEntry env (some vid) = none) := by
  refine ⟨?_, ?_, ?_, ?_, ?_, ?_⟩
  · unfold fetch_meta_with_retry
    cases svc 0 with
    | ok m => simp
    | dlErr msg =>
      by_cases h : containsRL msg <;> cases h1 : svc 1 <;> simp [h]
    | otherErr => simp
  · intro m h
    simp [fetch_meta_with_retry, h]
  · intro msg h hrl
    refine ⟨?_, ?_, ?_⟩
    · simp only [fetch_meta_with_retry, h, hrl, if_true]
      cases svc 1 <;> rfl
    · intro m hm
      simp [fetch_meta_with_retry, h, hrl, hm]
    · intro hno
      simp only [fetch_meta_with_retry, h, hrl, if_true]
      cases h1 : svc 1 with
      | ok m => exact absurd h1 (hno m)
      | dlErr msg' => rfl
      | otherErr => rfl
  · intro msg h hrl
    simp [fetch_meta_with_retry, h, hrl]
  · intro h
    simp [fetch_meta_with_retry, h]
  · intro env vid h
    simp only [processEntry]
    by_cases hv : vid = []
    · simp [hv]
    · cases hf : fetch_transcript (env.transcript vid) with
      | error e => simp [hv, hf]
      | ok t => simp [hv, hf, h]

/-- A concrete metadata-service behaviour: the first call fails with a
rate-limit message, the retry succeeds. -/
def c3Svc : Nat → MetaResp :=
  fun n =>
    if n = 0 then .dlErr ['R', 'a', 't', 'e', '-', 'l', 'i', 'm', 'i', 't', 'e', 'd']
    else .ok ⟨some 3, none, none, none, none⟩

theorem c3_metadata_retry_witness :
    (fetch_meta_with_retry c3Svc).2 = (2, [60]) ∧
    (fetch_meta_with_retry c3Svc).1 = some ⟨some 3, none, none, none, none⟩ :=
  have h := (c3_metadata_retry c3Svc).2.2.1
    ['R', 'a', 't', 'e', '-', 'l', 'i', 'm', 'i', 't', 'e', 'd'] rfl (by decide)
  ⟨h.1, h.2.1 ⟨some 3, none, none, none, none⟩ rfl⟩

/-! ## The C4 end-to-end channel scenario -/

/-- The transcript text `"hello world"`. -/
def helloWorld : List Char := ['h', 'e', 'l', 'l', 'o', ' ', 'w', 'o', 'r', 'l', 'd']

/-- Scenario environment: video `A` has captions disabled, video `B` has an
empty caption list, video `C` has the single segment `"hello world"`;
metadata succeeds everywhere (all fields absent, so numeric defaults apply). -/
def c4Env : ChannelEnv where
  transcript := fun vid =>
    if vid = ['A'] then .disabled
    else if vid = ['B'] then .segs []
    else .segs [helloWorld]
  meta := fun _ _ => .ok ⟨none, none, none, none, none⟩

/-- The single row the scenario run emits. -/
def c4Row : VideoRow :=
  { video_id := some ['C'], views := 0, likes := 0, comments := 0,
    title := [], published_at := [], transcript := helloWorld }

/-- C4: `fetch_transcript` fails with the provider's `disabled` condition when
captions are unavailable, fails with the distinct `empty` error when the
space-separated concatenation of the caption segments strips to blank, and
otherwise returns that concatenation; consequently the three-upload scenario
(A disabled, B empty caption list, C one segment `"hello world"`) emits
exactly one row, for C, with transcript `"hello world"`. -/
theorem c4_fetch_transcript (segs : List (List Char)) :
    fetch_transcript .disabled = .error .disabled ∧
    (stripWS (joinSegs segs) = [] →
      fetch_transcript (.segs segs) = .error .emptyTranscript) ∧
    (stripWS (joinSegs segs) ≠ [] →
      fetch_transcript (.segs segs) = .ok (stripWS (joinSegs segs))) ∧
    channel_rows c4Env [some ['A'], some ['B'], some ['C']] = [c4Row] := by
  refine ⟨rfl, fun h => by simp [fetch_transcript, h], fun h => by
    simp [fetch_transcript, h], ?_⟩
  decide

theorem c4_fetch_transcript_witness :
    fetch_transcript (TrResp.segs [[]]) = .error .emptyTranscript ∧
    channel_rows c4Env [some ['A'], some ['B'], some ['C']] = [c4Row] :=
  ⟨(c4_fetch_transcript [[]]).2.1 (by decide), (c4_fetch_transcript [[]]).2.2.2⟩

/-! ## Stratified keyword sampler — `src/main.py`, lines 72–149 -/

/-- One candidate entry of a `ytsearch50` result (`info['entries']`); each
field models the corresponding `e.get(...)` key, absent/`None` as `none`. -/
structure SearchEntry where
  id : Option (List Char)
  view_count : Option Nat
  like_count : Option Nat
  comment_count : Option Nat
  title : Option (List Char)
  upload_date : Option (List Char)
deriving DecidableEq

/-- Behaviour of one `ydl.extract_info("ytsearch50:<q>", ...)` call: a
`DownloadError` carrying a message (rate-limited or not — either way the code
sleeps and restarts the iteration without touching the collected state), or
an entry list (a missing `entries` key is `info.get('entries', [])`, i.e. the
empty list). -/
inductive SearchResp where
  | dlErr (msg : List Char)
  | results (entries : List SearchEntry)

/-- External-service behaviour for one tier's sampling run: the search
response of each loop iteration (iteration-indexed; the random keyword choice
is folded into the oracle) and the transcript response per video id (the id
is `e.get('id')`, hence optional). -/
structure SamplerEnv where
  search : Nat → SearchResp
  transcript : Option (List Char) → TrResp

/-- The `collected` mapping (a Python dict: insertion-ordered, keyed by
`vid = e.get('id')`). -/
abbrev SState := List (Option (List Char) × VideoRow)

/-- `vid in collected` (line 112). -/
def hasKey (s : SState) (k : Option (List Char)) : Bool :=
  s.any fun p => decide (p.1 = k)

/-- `views < max_views`, where `max_views = float('inf')` is `none`. -/
def viewLt (v : Nat) : Option Nat → Bool
  | none => true
  | some hi => decide (v < hi)

/-- `min_views <= views < max_views` (line 114). -/
def inRange (lo : Nat) (hi : Option Nat) (v : Nat) : Bool :=
  decide (lo ≤ v) && viewLt v hi

/-- The record built at lines 129–137 on acceptance, with
`views = e.get('view_count') or 0` and the `or 0` / `''` defaults. -/
def mkAccepted (e : SearchEntry) (t : List Char) : VideoRow :=
  { video_id := e.id
    views := e.view_count.getD 0
    likes := e.like_count.getD 0
    comments := e.comment_count.getD 0
    title := e.title.getD []
    published_at := e.upload_date.getD []
    transcript := t }

/-- The per-candidate filter body (lines 108–137): skip an already collected
id; skip when `views` is outside `[min_views, max_views)`; skip on any
transcript error (`TranscriptsDisabled` silently, anything else with a log
line); otherwise insert the record under its id (a fresh key, so an append in
insertion order). -/
def tryAccept (env : SamplerEnv) (lo : Nat) (hi : Option Nat)
    (s : SState) (e : SearchEntry) : Option SState :=
  if hasKey s e.id then none
  else if inRange lo hi (e.view_count.getD 0) then
    match fetch_transcript (env.transcript e.id) with
    | .error _ => none
    | .ok t => some (s ++ [(e.id, mkAccepted e t)])
  else none

/-- The `for e in entries` scan (lines 108–141): candidates in order; after
each acceptance, `if len(collected) >= needed: break`. -/
def scanEntries (env : SamplerEnv) (lo : Nat) (hi : Option Nat) (needed : Nat) :
    List SearchEntry → SState → SState
  | [], s => s
  | e :: rest, s =>
    match tryAccept env lo hi s e with
    | none => scanEntries env lo hi needed rest s
    | some s' =>
      if needed ≤ s'.length then s' else scanEntries env lo hi needed rest s'

/-- The `while len(collected) < needed` loop (lines 86–148), with an explicit
iteration budget `fuel`: `none` models a run that has not terminated within
`fuel` iterations (the source loop has no iteration cap).  `k` counts
iterations to index the search oracle; a `DownloadError` sleeps (60s when
rate-limited, else 10s — timing is not modelled) and restarts the iteration
without consuming a result. -/
def runLoop (env : SamplerEnv) (lo : Nat) (hi : Option Nat) (needed : Nat) :
    Nat → Nat → SState → Option SState
  | 0, _, _ => none
  | fuel + 1, k, s =>
    if s.length < needed then
      match env.search k with
      | .dlErr _ => runLoop env lo hi needed fuel (k + 1) s
      | .results es =>
        runLoop env lo hi needed fuel (k + 1) (scanEntries env lo hi needed es s)
    else some s

/-- `search_and_filter(min_views, max_views, needed)` (lines 72–149):
`list(collected.values())` of a terminating run; `none` when the loop did not
terminate within `fuel` iterations. -/
def search_and_filter (env : SamplerEnv) (lo : Nat) (hi : Option Nat)
    (needed : Nat) (fuel : Nat) : Option (List VideoRow) :=
  (runLoop env lo hi needed fuel 0 []).map (List.map Prod.snd)

theorem tryAccept_some (env : SamplerEnv) (lo : Nat) (hi : Option Nat)
    (s : SState) (e : SearchEntry) (s' : SState)
    (h : tryAccept env lo hi s e = some s') :
    ∃ t, fetch_transcript (env.transcript e.id) = .ok t ∧
      hasKey s e.id = false ∧ inRange lo hi (e.view_count.getD 0) = true ∧
      s' = s ++ [(e.id, mkAccepted e t)] := by
  unfold tryAccept at h
  by_cases h1 : hasKey s e.id = true
  · rw [if_pos h1] at h; cases h
  · rw [if_neg h1] at h
    by_cases h2 : inRange lo hi (e.view_count.getD 0) = true
    · rw [if_pos h2] at h
      cases hf : fetch_transcript (env.transcript e.id) with
      | error e' => rw [hf] at h; cases h
      | ok t =>
        rw [hf] at h
        cases h
        exact ⟨t, rfl, Bool.eq_false_iff.mpr h1, h2, rfl⟩
    · rw [if_neg h2] at h; cases h

theorem scanEntries_nil (env : SamplerEnv) (lo : Nat) (hi : Option Nat)
    (needed : Nat) (s : SState) : scanEntries env lo hi needed [] s = s := rfl

theorem scanEntries_cons_none (env : SamplerEnv) (lo : Nat) (hi : Option Nat)
    (needed : Nat) (e : SearchEntry) (rest : List SearchEntry) (s : SState)
    (h : tryAccept env lo hi s e = none) :
    scanEntries env lo hi needed (e :: rest) s =
      scanEntries env lo hi needed rest s := by
  simp [scanEntries, h]

theorem scanEntries_cons_some (env : SamplerEnv) (lo : Nat) (hi : Option Nat)
    (needed : Nat) (e : SearchEntry) (rest : List SearchEntry) (s s' : SState)
    (h : tryAccept env lo hi s e = some s') :
    scanEntries env lo hi needed (e :: rest) s =
      if needed ≤ s'.length then s' else scanEntries env lo hi needed rest s' := by
  simp [scanEntries, h]

theorem inRange_true (lo : Nat) (hi : Option Nat) (v : Nat)
    (h : inRange lo hi v = true) : lo ≤ v ∧ viewLt v hi = true := by
  simpa [inRange] using h

theorem hasKey_false (s : SState) (k : Option (List Char))
    (h : hasKey s k = false) : ∀ p ∈ s, p.1 ≠ k := by
  intro p hp
  simpa [hasKey] using (List.any_eq_false.mp h) p hp

theorem scanEntries_mem (env : SamplerEnv) (lo : Nat) (hi : Option Nat)
    (needed : Nat) (es : List SearchEntry) (s : SState)
    (P : Option (List Char) × VideoRow → Prop)
    (hs : ∀ p ∈ s, P p)
    (hes : ∀ e ∈ es, ∀ t, fetch_transcript (env.transcript e.id) = .ok t →
      inRange lo hi (e.view_count.getD 0) = true → P (e.id, mkAccepted e t)) :
    ∀ p ∈ scanEntries env lo hi needed es s, P p := by
  induction es generalizing s with
  | nil =>
    rw [scanEntries_nil]
    exact hs
  | cons e rest ih =>
    cases ht : tryAccept env lo hi s e with
    | none =>
      rw [scanEntries_cons_none env lo hi needed e rest s ht]
      exact ih s hs fun e' he' => hes e' (List.mem_cons_of_mem _ he')
    | some s' =>
      obtain ⟨t, hf, hk, hr, rfl⟩ := tryAccept_some env lo hi s e s' ht
      rw [scanEntries_cons_some env lo hi needed e rest s _ ht]
      have hs' : ∀ p ∈ s ++ [(e.id, mkAccepted e t)], P p := by
        intro p hp
        rcases List.mem_append.mp hp with hp | hp
        · exact hs p hp
        · rcases List.mem_singleton.mp hp with rfl
          exact hes e (List.mem_cons_self e rest) t hf hr
      split
      · exact hs'
      · exact ih _ hs' fun e' he' => hes e' (List.mem_cons_of_mem _ he')

theorem scanEntries_length_le (env : SamplerEnv) (lo : Nat) (hi : Option Nat)
    (needed : Nat) (es : List SearchEntry) (s : SState)
    (h : s.length < needed) :
    (scanEntries env lo hi needed es s).length ≤ needed := by
  induction es generalizing s with
  | nil =>
    rw [scanEntries_nil]
    omega
  | cons e rest ih =>
    cases ht : tryAccept env lo hi s e with
    | none =>
      rw [scanEntries_cons_none env lo hi needed e rest s ht]
      exact ih s h
    | some s' =>
      obtain ⟨t, _, _, _, rfl⟩ := tryAccept_some env lo hi s e s' ht
      rw [scanEntries_cons_some env lo hi needed e rest s _ ht]
      have hlen : (s ++ [(e.id, mkAccepted e t)]).length = s.length + 1 := by simp
      by_cases hq : needed ≤ (s ++ [(e.id, mkAccepted e t)]).length
      · rw [if_pos hq, hlen]; omega
      · rw [if_neg hq]
        exact ih _ (by omega)

theorem scanEntries_nodup (env : SamplerEnv) (lo : Nat) (hi : Option Nat)
    (needed : Nat) (es : List SearchEntry) (s : SState)
    (h : (s.map Prod.fst).Nodup) :
    ((scanEntries env lo hi needed es s).map Prod.fst).Nodup := by
  induction es generalizing s with
  | nil =>
    rw [scanEntries_nil]
    exact h
  | cons e rest ih =>
    cases ht : tryAccept env lo hi s e with
    | none =>
      rw [scanEntries_cons_none env lo hi needed e rest s ht]
      exact ih s h
    | some s' =>
      obtain ⟨t, _, hk, _, rfl⟩ := tryAccept_some env lo hi s e s' ht
      rw [scanEntries_cons_some env lo hi needed e rest s _ ht]
      have hnd : ((s ++ [(e.id, mkAccepted e t)]).map Prod.fst).Nodup := by
        rw [List.map_append]
        refine List.Nodup.append h (List.nodup_singleton _) ?_
        intro a ha hb
        simp only [List.map_cons, List.map_nil, List.mem_singleton] at hb
        subst hb
        obtain ⟨p, hp, hpa⟩ := List.mem_map.mp ha
        exact hasKey_false s e.id hk p hp hpa
      split
      · exact hnd
      · exact ih _ hnd

theorem scanEntries_early_stop (env : SamplerEnv) (lo : Nat) (hi : Option Nat)
    (needed : Nat) (es more : List SearchEntry) (s : SState)
    (h1 : s.length < needed)
    (h2 : needed ≤ (scanEntries env lo hi needed es s).length) :
    scanEntries env lo hi needed (es ++ more) s = scanEntries env lo hi needed es s := by
  induction es generalizing s with
  | nil =>
    rw [scanEntries_nil] at h2
    omega
  | cons e rest ih =>
    rw [List.cons_append]
    cases ht : tryAccept env lo hi s e with
    | none =>
      rw [scanEntries_cons_none env lo hi needed e rest s ht] at h2
      rw [scanEntries_cons_none env lo hi needed e (rest ++ more) s ht,
        scanEntries_cons_none env lo hi needed e rest s ht]
      exact ih s h1 h2
    | some s' =>
      obtain ⟨t, _, _, _, rfl⟩ := tryAccept_some env lo hi s e s' ht
      rw [scanEntries_cons_some env lo hi needed e rest s _ ht] at h2
      rw [scanEntries_cons_some env lo hi needed e (rest ++ more) s _ ht,
        scanEntries_cons_some env lo hi needed e rest s _ ht]
      by_cases hq : needed ≤ (s ++ [(e.id, mkAccepted e t)]).length
      · simp only [if_pos hq]
      · simp only [if_neg hq] at h2 ⊢
        have hlen : (s ++ [(e.id, mkAccepted e t)]).length = s.length + 1 := by simp
        exact ih _ (by omega) h2

/-- The invariant each collected pair satisfies: the key is the record's
video id; the record passed the tier filter; its transcript is non-empty; and
it originates from some entry of some search response of the run. -/
def LoopInv (env : SamplerEnv) (lo : Nat) (hi : Option Nat)
    (p : Option (List Char) × VideoRow) : Prop :=
  p.1 = p.2.video_id ∧ lo ≤ p.2.views ∧ viewLt p.2.views hi = true ∧
  p.2.transcript ≠ [] ∧
  ∃ k es e, env.search k = .results es ∧ e ∈ es ∧
    p.2.video_id = e.id ∧ p.2.views = e.view_count.getD 0

theorem runLoop_spec (env : SamplerEnv) (lo : Nat) (hi : Option Nat) (needed : Nat) :
    ∀ fuel k s out, runLoop env lo hi needed fuel k s = some out →
    (∀ p ∈ s, LoopInv env lo hi p) → (s.map Prod.fst).Nodup → s.length ≤ needed →
    out.length = needed ∧ (out.map Prod.fst).Nodup ∧
      ∀ p ∈ out, LoopInv env lo hi p := by
  intro fuel
  induction fuel with
  | zero =>
    intro k s out h
    simp [runLoop] at h
  | succ fuel ih =>
    intro k s out h hinv hnd hlen
    rw [runLoop] at h
    by_cases hq : s.length < needed
    · rw [if_pos hq] at h
      cases hsk : env.search k with
      | dlErr msg =>
        rw [hsk] at h
        exact ih (k + 1) s out h hinv hnd hlen
      | results es =>
        rw [hsk] at h
        refine ih (k + 1) _ out h ?_ ?_ ?_
        · refine scanEntries_mem env lo hi needed es s _ hinv ?_
          intro e he t hf hr
          obtain ⟨hlo, hhi⟩ := inRange_true _ _ _ hr
          exact ⟨rfl, hlo, hhi, fetch_transcript_ok_ne_nil _ _ hf,
            k, es, e, hsk, he, rfl, rfl⟩
        · exact scanEntries_nodup env lo hi needed es s hnd
        · exact scanEntries_length_le env lo hi needed es s hq
    · rw [if_neg hq] at h
      cases h
      exact ⟨by omega, hnd, hinv⟩

theorem search_and_filter_spec (env : SamplerEnv) (lo : Nat) (hi : Option Nat)
    (needed fuel : Nat) (out : List VideoRow)
    (h : search_and_filter env lo hi needed fuel = some out) :
    out.length = needed ∧ (out.map VideoRow.video_id).Nodup ∧
    ∀ r ∈ out, lo ≤ r.views ∧ viewLt r.views hi = true ∧ r.transcript ≠ [] ∧
      ∃ k es e, env.search k = .results es ∧ e ∈ es ∧
        r.video_id = e.id ∧ r.views = e.view_count.getD 0 := by
  unfold search_and_filter at h
  cases hr : runLoop env lo hi needed fuel 0 [] with
  | none => rw [hr] at h; cases h
  | some st =>
    rw [hr] at h
    cases h
    obtain ⟨h1, h2, h3⟩ := runLoop_spec env lo hi needed fuel 0 [] st hr
      (by simp) (by simp) (by simp)
    refine ⟨by simpa using h1, ?_, ?_⟩
    · have hmm : (st.map Prod.snd).map VideoRow.video_id = st.map Prod.fst := by
        rw [List.map_map]
        exact List.map_congr_left fun p hp => ((h3 p hp).1).symm
      rw [hmm]
      exact h2
    · intro r hrm
      obtain ⟨p, hp, rfl⟩ := List.mem_map.mp hrm
      obtain ⟨_, hlo, hhi, ht, prov⟩ := h3 p hp
      exact ⟨hlo, hhi, ht, prov⟩

/-- C2: whenever `search_and_filter(min_views, max_views, needed)` terminates
(`some` result within the iteration budget) it returns exactly `needed`
records, each with a non-empty transcript and a view count `v` with
`min_views ≤ v < max_views` (half-open: `v = max_views` is never accepted);
and within an iteration, once the quota is reached the remaining candidates
of the batch are never examined. -/
theorem c2_search_and_filter (env : SamplerEnv) (lo : Nat) (hi : Option Nat)
    (needed fuel : Nat) (out : List VideoRow)
    (h : search_and_filter env lo hi needed fuel = some out) :
    out.length = needed ∧
    (∀ r ∈ out, r.transcript ≠ [] ∧ lo ≤ r.views ∧ viewLt r.views hi = true) ∧
    (∀ (es more : List SearchEntry) (s : SState), s.length < needed →
      needed ≤ (scanEntries env lo hi needed es s).length →
      scanEntries env lo hi needed (es ++ more) s =
        scanEntries env lo hi needed es s) := by
  obtain ⟨h1, _, h3⟩ := search_and_filter_spec env lo hi needed fuel out h
  exact ⟨h1, fun r hr => ⟨(h3 r hr).2.2.1, (h3 r hr).1, (h3 r hr).2.1⟩,
    fun es more s => scanEntries_early_stop env lo hi needed es more s⟩

/-- A one-candidate environment on which the sampling loop terminates. -/
def c2Env : SamplerEnv where
  search := fun _ => .results [⟨some ['v'], some 5, none, none, none, none⟩]
  transcript := fun _ => .segs [['h', 'i']]

/-- The single record the `c2Env` run collects. -/
def c2Row : VideoRow :=
  { video_id := some ['v'], views := 5, likes := 0, comments := 0,
    title := [], published_at := [], transcript := ['h', 'i'] }

theorem c2_search_and_filter_witness :
    search_and_filter c2Env 0 (some 10) 1 2 = some [c2Row] ∧
    ([c2Row].length = 1 ∧
     (∀ r ∈ [c2Row], r.transcript ≠ [] ∧ 0 ≤ r.views ∧
        viewLt r.views (some 10) = true) ∧
     (∀ (es more : List SearchEntry) (s : SState), s.length < 1 →
        1 ≤ (scanEntries c2Env 0 (some 10) 1 es s).length →
        scanEntries c2Env 0 (some 10) 1 (es ++ more) s =
          scanEntries c2Env 0 (some 10) 1 es s)) :=
  ⟨by decide, c2_search_and_filter c2Env 0 (some 10) 1 2 [c2Row] (by decide)⟩

/-- C10: a candidate whose `view_count` field is missing (`None`) is treated
as having exactly 0 views (`e.get('view_count') or 0`): it is rejected
whenever `min_views > 0`, and if it is accepted then `min_views = 0` and the
tier's range contains 0, the stored record carrying `views = 0`. -/
theorem c10_missing_views (env : SamplerEnv) (lo : Nat) (hi : Option Nat)
    (s : SState) (e : SearchEntry) (he : e.view_count = none) :
    (0 < lo → tryAccept env lo hi s e = none) ∧
    (∀ s', tryAccept env lo hi s e = some s' →
      lo = 0 ∧ viewLt 0 hi = true ∧ ∀ p ∈ s', p ∈ s ∨ p.2.views = 0) := by
  have hv : e.view_count.getD 0 = 0 := by rw [he]; rfl
  constructor
  · intro hlo
    unfold tryAccept
    rw [hv]
    have hfalse : inRange lo hi 0 = false := by
      simp only [inRange, Bool.and_eq_false_iff]
      left
      simpa using by omega
    by_cases hk : hasKey s e.id = true
    · rw [if_pos hk]
    · rw [if_neg hk, hfalse]
      rfl
  · intro s' hs'
    obtain ⟨t, _, _, hrange, rfl⟩ := tryAccept_some env lo hi s e s' hs'
    rw [hv] at hrange
    obtain ⟨hlo, hhi⟩ := inRange_true lo hi 0 hrange
    refine ⟨by omega, hhi, ?_⟩
    intro p hp
    rcases List.mem_append.mp hp with hp | hp
    · exact Or.inl hp
    · rcases List.mem_singleton.mp hp with rfl
      right
      show (mkAccepted e t).views = 0
      simp [mkAccepted, hv]

/-- A candidate with no `view_count` field. -/
def c10Entry : SearchEntry := ⟨some ['x'], none, none, none, none, none⟩

theorem c10_missing_views_witness :
    0 < 1 ∧ tryAccept c2Env 1 none [] c10Entry = none :=
  ⟨by omega, (c10_missing_views c2Env 1 none [] c10Entry rfl).1 (by omega)⟩

/-! ## The full stratified run — `src/main.py`, lines 23–36 and 154–171 -/

/-- `TARGET_PER_TIER = 50` (line 23). -/
def TARGET_PER_TIER : Nat := 50

/-- `main()` (src/main.py lines 154–171): sample the four configured tiers
(`TIERS`, line 31: `viral` `[1_000_000, ∞)`, `popular`
`[100_000, 1_000_000)`, `mid` `[10_000, 100_000)`, `niche` `[0, 10_000)`) in
order, each against its own slice of the external world, and concatenate the
collected records into the single output file; `none` when some tier's loop
fails to terminate within `fuel` iterations. -/
def sampler_rows (envViral envPopular envMid envNiche : SamplerEnv) (fuel : Nat) :
    Option (List VideoRow) :=
  (search_and_filter envViral 1000000 none TARGET_PER_TIER fuel).bind fun a =>
  (search_and_filter envPopular 100000 (some 1000000) TARGET_PER_TIER fuel).bind fun b =>
  (search_and_filter envMid 10000 (some 100000) TARGET_PER_TIER fuel).bind fun c =>
  (search_and_filter envNiche 0 (some 10000) TARGET_PER_TIER fuel).map fun d =>
  a ++ b ++ c ++ d

theorem viewLt_some (v H : Nat) (h : viewLt v (some H) = true) : v < H := by
  simpa [viewLt] using h

theorem nodup_append_of_sep {α : Type} {l1 l2 : List α} (P Q : α → Prop)
    (h1 : l1.Nodup) (h2 : l2.Nodup) (hP : ∀ x ∈ l1, P x) (hQ : ∀ x ∈ l2, Q x)
    (hdisj : ∀ x, P x → Q x → False) : (l1 ++ l2).Nodup :=
  h1.append h2 fun x hx1 hx2 => hdisj x (hP x hx1) (hQ x hx2)

/-- C5 (amended): every record either harvester emits has a non-empty
transcript, and within one tier `video_id` is unique; for the stratified
sampler's single concatenated output file, `video_id` is globally unique
provided every search result's view count is a fixed function of the video id
across all queries of the run (the code performs no cross-tier
deduplication, so it needs the disjointness of the configured tier ranges,
which only bites when each id carries one consistent view count). -/
theorem c5_uniqueness_amended (e1 e2 e3 e4 : SamplerEnv)
    (V : Option (List Char) → Nat) (fuel : Nat) (out : List VideoRow)
    (hV : ∀ env ∈ [e1, e2, e3, e4], ∀ k es e,
      env.search k = SearchResp.results es → e ∈ es →
      e.view_count.getD 0 = V e.id)
    (h : sampler_rows e1 e2 e3 e4 fuel = some out) :
    (out.map VideoRow.video_id).Nodup ∧ ∀ r ∈ out, r.transcript ≠ [] := by
  simp only [sampler_rows, Option.bind_eq_some, Option.map_eq_some'] at h
  obtain ⟨a, ha, b, hb, c, hc, d, hd, rfl⟩ := h
  have Sa := search_and_filter_spec e1 1000000 none TARGET_PER_TIER fuel a ha
  have Sb := search_and_filter_spec e2 100000 (some 1000000) TARGET_PER_TIER fuel b hb
  have Sc := search_and_filter_spec e3 10000 (some 100000) TARGET_PER_TIER fuel c hc
  have Sd := search_and_filter_spec e4 0 (some 10000) TARGET_PER_TIER fuel d hd
  have hVmem : ∀ (env : SamplerEnv) (lo : Nat) (hi : Option Nat) (l : List VideoRow),
      env ∈ [e1, e2, e3, e4] →
      (∀ r ∈ l, lo ≤ r.views ∧ viewLt r.views hi = true ∧ r.transcript ≠ [] ∧
        ∃ k es e, env.search k = SearchResp.results es ∧ e ∈ es ∧
          r.video_id = e.id ∧ r.views = e.view_count.getD 0) →
      ∀ vid ∈ l.map VideoRow.video_id, lo ≤ V vid ∧ viewLt (V vid) hi = true := by
    intro env lo hi l henv hspec vid hvid
    obtain ⟨r, hr, rfl⟩ := List.mem_map.mp hvid
    obtain ⟨hlo, hhi, _, k, es, e, hsk, he, hide, hviews⟩ := hspec r hr
    have hcons := hV env henv k es e hsk he
    have hveq : r.views = V r.video_id := by rw [hviews, hcons, hide]
    rw [← hveq]
    exact ⟨hlo, hhi⟩
  have Ha := hVmem e1 1000000 none a (by simp) Sa.2.2
  have Hb := hVmem e2 100000 (some 1000000) b (by simp) Sb.2.2
  have Hc := hVmem e3 10000 (some 100000) c (by simp) Sc.2.2
  have Hd := hVmem e4 0 (some 10000) d (by simp) Sd.2.2
  constructor
  · have hmap : (a ++ b ++ c ++ d).map VideoRow.video_id =
        a.map VideoRow.video_id ++ (b.map VideoRow.video_id ++
          (c.map VideoRow.video_id ++ d.map VideoRow.video_id)) := by
      simp [List.map_append, List.append_assoc]
    rw [hmap]
    have ncd : (c.map VideoRow.video_id ++ d.map VideoRow.video_id).Nodup :=
      nodup_append_of_sep (fun vid => 10000 ≤ V vid) (fun vid => V vid < 10000)
        Sc.2.1 Sd.2.1 (fun vid hvid => (Hc vid hvid).1)
        (fun vid hvid => viewLt_some _ _ (Hd vid hvid).2)
        (fun vid h1 h2 => by omega)
    have hcd : ∀ vid ∈ c.map VideoRow.video_id ++ d.map VideoRow.video_id,
        V vid < 100000 := by
      intro vid hvid
      rcases List.mem_append.mp hvid with hvid | hvid
      · exact viewLt_some _ _ (Hc vid hvid).2
      · have := viewLt_some _ _ (Hd vid hvid).2
        omega
    have nbcd : (b.map VideoRow.video_id ++ (c.map VideoRow.video_id ++
        d.map VideoRow.video_id)).Nodup :=
      nodup_append_of_sep (fun vid => 100000 ≤ V vid) (fun vid => V vid < 100000)
        Sb.2.1 ncd (fun vid hvid => (Hb vid hvid).1) hcd
        (fun vid h1 h2 => by omega)
    have hbcd : ∀ vid ∈ b.map VideoRow.video_id ++ (c.map VideoRow.video_id ++
        d.map VideoRow.video_id), V vid < 1000000 := by
      intro vid hvid
      rcases List.mem_append.mp hvid with hvid | hvid
      · exact viewLt_some _ _ (Hb vid hvid).2
      · have := hcd vid hvid
        omega
    exact nodup_append_of_sep (fun vid => 1000000 ≤ V vid) (fun vid => V vid < 1000000)
      Sa.2.1 nbcd (fun vid hvid => (Ha vid hvid).1) hbcd
      (fun vid h1 h2 => by omega)
  · intro r hr
    simp only [List.append_assoc, List.mem_append] at hr
    rcases hr with hr | hr | hr | hr
    · exact (Sa.2.2 r hr).2.2.1
    · exact (Sb.2.2 r hr).2.2.1
    · exact (Sc.2.2 r hr).2.2.1
    · exact (Sd.2.2 r hr).2.2.1

/-- An environment whose every search iteration returns the same fifty
candidates, all carrying view count `views` and ids `'0'`..`'a'`. -/
def cexEnv (views : Nat) : SamplerEnv where
  search := fun _ => .results ((List.range 50).map fun i =>
    ⟨some [Char.ofNat (48 + i)], some views, none, none, none, none⟩)
  transcript := fun _ => .segs [['h', 'i']]

set_option maxRecDepth 40000 in
/-- C5 (counterexample): when the search service reports the same fifty video
ids with view counts 2 000 000 to the viral tier, 500 000 to the popular
tier, 50 000 to the mid tier and 5 000 to the niche tier (view counts of a
video change between queries; the code never deduplicates across tiers), the
full run terminates and its single concatenated output contains repeated
`video_id`s, refuting the claimed global uniqueness. -/
theorem c5_counterexample :
    (sampler_rows (cexEnv 2000000) (cexEnv 500000) (cexEnv 50000) (cexEnv 5000) 2).isSome
      = true ∧
    ¬ (((sampler_rows (cexEnv 2000000) (cexEnv 500000) (cexEnv 50000)
        (cexEnv 5000) 2).getD []).map VideoRow.video_id).Nodup := by
  constructor
  · decide
  · decide

/-- A consistent four-tier environment: tier-tagged ids, one fixed view count
per id. -/
def wTag (tc : Char) (views : Nat) : SamplerEnv where
  search := fun _ => .results ((List.range 50).map fun i =>
    ⟨some [tc, Char.ofNat (48 + i)], some views, none, none, none, none⟩)
  transcript := fun _ => .segs [['h', 'i']]

/-- The fixed id-to-view-count function of the `wTag` environments. -/
def wV : Option (List Char) → Nat
  | some ('a' :: _) => 2000000
  | some ('b' :: _) => 500000
  | some ('c' :: _) => 50000
  | _ => 5000

theorem wTag_consistent :
    ∀ env ∈ [wTag 'a' 2000000, wTag 'b' 500000, wTag 'c' 50000, wTag 'd' 5000],
      ∀ k es e, env.search k = SearchResp.results es → e ∈ es →
        e.view_count.getD 0 = wV e.id := by
  intro env henv k es e hk he
  simp only [List.mem_cons, List.not_mem_nil, or_false] at henv
  rcases henv with rfl | rfl | rfl | rfl <;>
  · simp only [wTag] at hk
    cases hk
    obtain ⟨i, hi, rfl⟩ := List.mem_map.mp he
    rfl

/-- The concatenated output of the consistent `wTag` run. -/
def c5wOut : List VideoRow :=
  (sampler_rows (wTag 'a' 2000000) (wTag 'b' 500000) (wTag 'c' 50000)
    (wTag 'd' 5000) 2).getD []

set_option maxRecDepth 40000 in
theorem c5_uniqueness_amended_witness :
    (∀ env ∈ [wTag 'a' 2000000, wTag 'b' 500000, wTag 'c' 50000, wTag 'd' 5000],
      ∀ k es e, env.search k = SearchResp.results es → e ∈ es →
        e.view_count.getD 0 = wV e.id) ∧
    sampler_rows (wTag 'a' 2000000) (wTag 'b' 500000) (wTag 'c' 50000)
      (wTag 'd' 5000) 2 = some c5wOut ∧
    ((c5wOut.map VideoRow.video_id).Nodup ∧ ∀ r ∈ c5wOut, r.transcript ≠ []) := by
  have hout : sampler_rows (wTag 'a' 2000000) (wTag 'b' 500000) (wTag 'c' 50000)
      (wTag 'd' 5000) 2 = some c5wOut := by decide
  exact ⟨wTag_consistent, hout,
    c5_uniqueness_amended _ _ _ _ wV 2 c5wOut wTag_consistent hout⟩

/-! ## Per-transcript transformer scoring —
`src/sentiment_analyzer_transformer.py`, lines 60–100 -/

/-- Two-class softmax (`F.softmax(logits, dim=-1)` on the `[1, 2]` logit
tensor, line 85), in exact real arithmetic. -/
noncomputable def softmax2 (z : ℝ × ℝ) : ℝ × ℝ :=
  (Real.exp z.1 / (Real.exp z.1 + Real.exp z.2),
   Real.exp z.2 / (Real.exp z.1 + Real.exp z.2))

/-- Python `sum(xs) / len(xs)` (lines 94–95): raises `ZeroDivisionError` on
an empty list, modelled as `none`. -/
noncomputable def pyAvg (xs : List ℝ) : Option ℝ :=
  if xs.length = 0 then none else some (xs.sum / xs.length)

/-- The arithmetic mean (total; used to state aggregate values). -/
noncomputable def listMean (xs : List ℝ) : ℝ := xs.sum / xs.length

/-- The three per-transcript outputs (columns `transformer_neg_prob`,
`transformer_pos_prob`, `transformer_score`). -/
structure TScore where
  neg_prob : ℝ
  pos_prob : ℝ
  score : ℝ

/-- The per-window probabilities of one transcript (lines 73–91): for each
window, `input_ids = [tokenizer.cls_token_id] + ids + [tokenizer.sep_token_id]`
is fed to the model — an external oracle `classify` producing the two
logits — and the two-class softmax is taken; `probs[0]` is `neg_prob`,
`probs[1]` is `pos_prob`. -/
noncomputable def windowProbs (cls sep : Nat) (classify : List Nat → ℝ × ℝ)
    (token_ids : List Nat) (chunk_size : Nat) : List (ℝ × ℝ) :=
  (transcript_to_id_chunks token_ids chunk_size).map fun ids =>
    softmax2 (classify ((cls :: ids) ++ [sep]))

/-- The per-transcript scoring step (lines 65–100): chunk, classify and
softmax per window, then `avg_neg = sum(chunk_neg) / len(chunk_neg)`,
`avg_pos = sum(chunk_pos) / len(chunk_pos)`, `score = avg_pos - avg_neg`.
`none` models the unhandled `ZeroDivisionError` on a transcript with zero
windows. -/
noncomputable def scoreTranscript (cls sep : Nat) (classify : List Nat → ℝ × ℝ)
    (token_ids : List Nat) (chunk_size : Nat) : Option TScore :=
  match pyAvg ((windowProbs cls sep classify token_ids chunk_size).map Prod.fst),
      pyAvg ((windowProbs cls sep classify token_ids chunk_size).map Prod.snd) with
  | some an, some ap => some ⟨an, ap, ap - an⟩
  | _, _ => none

theorem softmax2_props (z : ℝ × ℝ) :
    0 ≤ (softmax2 z).1 ∧ (softmax2 z).1 ≤ 1 ∧ 0 ≤ (softmax2 z).2 ∧
    (softmax2 z).2 ≤ 1 ∧ (softmax2 z).1 + (softmax2 z).2 = 1 := by
  have h1 : 0 < Real.exp z.1 := Real.exp_pos _
  have h2 : 0 < Real.exp z.2 := Real.exp_pos _
  have hd : 0 < Real.exp z.1 + Real.exp z.2 := by linarith
  refine ⟨div_nonneg h1.le hd.le, ?_, div_nonneg h2.le hd.le, ?_, ?_⟩
  · exact div_le_one_of_le₀ (by linarith) hd.le
  · exact div_le_one_of_le₀ (by linarith) hd.le
  · show Real.exp z.1 / _ + Real.exp z.2 / _ = 1
    rw [div_add_div_same, div_self hd.ne']

theorem pyAvg_of_ne_nil (xs : List ℝ) (h : xs.length ≠ 0) :
    pyAvg xs = some (listMean xs) := by
  rw [pyAvg, if_neg h]
  rfl

/-- C6: for every transcript producing at least one window, the scoring step
succeeds, `transformer_neg_prob` / `transformer_pos_prob` are the arithmetic
means of the per-window probabilities, `transformer_score` is mean-positive
minus mean-negative, and each window's two probabilities lie in `[0, 1]` and
sum to 1 before averaging. -/
theorem c6_transformer_score (cls sep chunk_size : Nat)
    (classify : List Nat → ℝ × ℝ) (token_ids : List Nat)
    (h : transcript_to_id_chunks token_ids chunk_size ≠ []) :
    scoreTranscript cls sep classify token_ids chunk_size =
      some ⟨listMean ((windowProbs cls sep classify token_ids chunk_size).map Prod.fst),
            listMean ((windowProbs cls sep classify token_ids chunk_size).map Prod.snd),
            listMean ((windowProbs cls sep classify token_ids chunk_size).map Prod.snd) -
              listMean ((windowProbs cls sep classify token_ids chunk_size).map Prod.fst)⟩ ∧
    ∀ p ∈ windowProbs cls sep classify token_ids chunk_size,
      0 ≤ p.1 ∧ p.1 ≤ 1 ∧ 0 ≤ p.2 ∧ p.2 ≤ 1 ∧ p.1 + p.2 = 1 := by
  constructor
  · have hlen : (windowProbs cls sep classify token_ids chunk_size).length ≠ 0 := by
      simp only [windowProbs, List.length_map]
      intro hzero
      exact h (List.length_eq_zero.mp hzero)
    have e1 := pyAvg_of_ne_nil
      ((windowProbs cls sep classify token_ids chunk_size).map Prod.fst)
      (by simpa using hlen)
    have e2 := pyAvg_of_ne_nil
      ((windowProbs cls sep classify token_ids chunk_size).map Prod.snd)
      (by simpa using hlen)
    simp only [scoreTranscript, e1, e2]
  · intro p hp
    obtain ⟨w, _, rfl⟩ := List.mem_map.mp hp
    exact softmax2_props _

/-- A constant classifier oracle (logits `(0, 0)` for every window). -/
noncomputable def c6Classify : List Nat → ℝ × ℝ := fun _ => (0, 0)

theorem c6_transformer_score_witness :
    transcript_to_id_chunks [7] 1 ≠ [] ∧
    (scoreTranscript 101 102 c6Classify [7] 1 =
      some ⟨listMean ((windowProbs 101 102 c6Classify [7] 1).map Prod.fst),
            listMean ((windowProbs 101 102 c6Classify [7] 1).map Prod.snd),
            listMean ((windowProbs 101 102 c6Classify [7] 1).map Prod.snd) -
              listMean ((windowProbs 101 102 c6Classify [7] 1).map Prod.fst)⟩ ∧
     ∀ p ∈ windowProbs 101 102 c6Classify [7] 1,
       0 ≤ p.1 ∧ p.1 ≤ 1 ∧ 0 ≤ p.2 ∧ p.2 ≤ 1 ∧ p.1 + p.2 = 1) := by
  have h : transcript_to_id_chunks [7] 1 ≠ [] := by
    simp [transcript_to_id_chunks]
  exact ⟨h, c6_transformer_score 101 102 1 c6Classify [7] h⟩

/-- C8: a transcript whose tokenization yields zero windows (in particular
the empty tokenization, which is reachable) makes the chunk-averaging step
fail with the division-by-zero condition — the scoring operation is not total
over all transcripts. -/
theorem c8_zero_windows_crash (cls sep chunk_size : Nat)
    (classify : List Nat → ℝ × ℝ) (token_ids : List Nat)
    (h : transcript_to_id_chunks token_ids chunk_size = []) :
    scoreTranscript cls sep classify token_ids chunk_size = none ∧
    transcript_to_id_chunks [] chunk_size = [] := by
  refine ⟨?_, transcript_to_id_chunks_nil _⟩
  simp [scoreTranscript, windowProbs, h, pyAvg]

theorem c8_zero_windows_crash_witness :
    transcript_to_id_chunks ([] : List Nat) 510 = [] ∧
    (scoreTranscript 101 102 c6Classify [] 510 = none ∧
     transcript_to_id_chunks ([] : List Nat) 510 = []) :=
  ⟨transcript_to_id_chunks_nil 510,
   c8_zero_windows_crash 101 102 510 c6Classify [] (transcript_to_id_chunks_nil 510)⟩

/-! ## LLM reply parsing — `src/sentiment_analyzer_openai.py`, lines 43–62 -/

/-- `resp_text = response.output_text.strip()` followed by
`scores = [s.strip() for s in resp_text.split(",")]` (lines 57–61): split the
model's free-form reply on commas and strip each piece — no validation of
the piece count or numeric shape. -/
def parse_reply (reply : List Char) : List (List Char) :=
  ((stripWS reply).splitOn ',').map stripWS

/-- The per-row scoring loop (lines 43–62): one reply per row, each
split-and-strip result assigned as that row's content
(`new_data.loc[idx, parameters.keys()] = scores`; the data-frame itself is
external spreadsheet I/O). -/
def llm_rows (replies : List (List Char)) : List (List (List Char)) :=
  replies.map parse_reply

/-- C9: the LLM scorer splits each reply on commas with no validation: every
row of replies yields exactly one row of values (none skipped, no error
path), the values are exactly the split-and-stripped strings of that row's
reply, and a reply that does not parse as four numbers — too few fields, or
non-numeric text — is assigned as-is. -/
theorem c9_llm_no_validation (replies : List (List Char)) :
    (llm_rows replies).length = replies.length ∧
    (∀ i, i < replies.length →
      (llm_rows replies).getD i [] = parse_reply (replies.getD i [])) ∧
    parse_reply ['1', ',', '2'] = [['1'], ['2']] ∧
    (parse_reply ['1', ',', '2']).length ≠ 4 ∧
    parse_reply ['o', 'o', 'p', 's'] = [['o', 'o', 'p', 's']] := by
  refine ⟨by simp [llm_rows], ?_, by decide, by decide, by decide⟩
  intro i hi
  have hx : replies[i]? = some replies[i] := List.getElem?_eq_getElem hi
  simp [llm_rows, List.getD_eq_getElem?_getD, List.getElem?_map, hx]

theorem c9_llm_no_validation_witness :
    (llm_rows [['1', ',', '2']]).length = [['1', ',', '2']].length :=
  (c9_llm_no_validation [['1', ',', '2']]).1

end YTSent
